import Mathlib

/-!
Verification of the draftmaid DSL engine (src/lib/engine.js).

The engine is embedded shallowly: every JS function of the parser core is
translated to an executable Lean definition over `List Char` / `String` and
exact rationals `ℚ`.  JS numbers are modelled by `ℚ`; the four transcendental
operations the engine takes from the JS `Math` object (`Math.sqrt`,
`Math.atan2`, `Math.PI`, `Math.cos`, `Math.sin`) are abstracted into a
`MathOps` record, since their values are irrational and the claims under
study are structural in them.  Division by zero in the restricted arithmetic
evaluator is modelled as failure, matching the engine's rejection of
non-finite results.  The evaluator follows the strict-mode JS lexis and
grammar on the whitelisted characters: adjacent `--`/`++` pairs are the
update-operator tokens and always fail here (so `3--5` is an error while
`3- -5` is `8`), and `**` is exponentiation with its JS restrictions
(right-associative, no explicitly signed left operand); a `**` with a
non-integer exponent is irrational-valued in general and, like the `MathOps`
operations, lies outside the rational model.
-/

set_option allowUnsafeReducibility true
attribute [semireducible] Rat.add Rat.mul Rat.sub Rat.inv
set_option synthInstance.maxSize 4096
set_option maxRecDepth 4000

namespace Draftmaid

/-- The ASCII part of the JS regex class `\s`. -/
def isJsSpace (c : Char) : Bool :=
  c == ' ' || c == '\t' || c == '\n' || c == '\r' || c == '\x0b' || c == '\x0c'

def jsTrimLeft (cs : List Char) : List Char := cs.dropWhile isJsSpace

def jsTrimRight (cs : List Char) : List Char := (cs.reverse.dropWhile isJsSpace).reverse

/-- JS `String.prototype.trim` on a character list. -/
def jsTrim (cs : List Char) : List Char := jsTrimRight (jsTrimLeft cs)

/-- JS word character class `\w` = `[A-Za-z0-9_]`. -/
def isWordChar (c : Char) : Bool := c.isAlphanum || c == '_'

/-- First character of a JS identifier `[a-zA-Z_]`. -/
def isIdentStart (c : Char) : Bool := c.isAlpha || c == '_'

def isHexDigit (c : Char) : Bool :=
  c.isDigit || ('a' ≤ c && c ≤ 'f') || ('A' ≤ c && c ≤ 'F')

def lbrace : Char := '\x7b'

def rbrace : Char := '\x7d'

/-- Depth bookkeeping used by the engine: `{`/`(` open, `}`/`)` close. -/
def depthDelta (c : Char) : ℤ :=
  if c == lbrace || c == '(' then 1 else if c == rbrace || c == ')' then -1 else 0

def digitVal (c : Char) : ℕ := c.toNat - 48

def natOfDigits (ds : List Char) : ℕ := ds.foldl (fun a c => a * 10 + digitVal c) 0

/-- Fractional digits of `r / d` by long division (`fuel` caps the length,
matching the finite decimal output of JS number stringification). -/
def fracDigits : ℕ → ℕ → ℕ → List Char
  | 0, _, _ => []
  | _ + 1, 0, _ => []
  | fuel + 1, r, d => Nat.digitChar ((r * 10) / d) :: fracDigits fuel ((r * 10) % d) d

/-- JS stringification of a number, as used when a substituted value is
spliced back into an expression string. -/
def numToString (q : ℚ) : String :=
  let sign := if q < 0 then "-" else ""
  let n := q.num.natAbs
  let d := q.den
  let ip := n / d
  let r := n % d
  if r = 0 then sign ++ toString ip
  else sign ++ toString ip ++ "." ++ String.mk (fracDigits 30 r d)

/-- `Math.round(q * 1000) / 1000`; JS `Math.round` is `⌊x + 1/2⌋`. -/
def round3 (q : ℚ) : ℚ := ((Rat.floor (q * 1000 + 1/2) : ℤ) : ℚ) / 1000

/-- JS `Math.round`. -/
def roundInt (q : ℚ) : ℤ := Rat.floor (q + 1/2)

/-- The character class of `DSLParser.math`'s whitelist regex
`^[\d\s\+\-\*\/\(\)\.]+$`. -/
def isMathChar (c : Char) : Bool :=
  c.isDigit || isJsSpace c || c == '+' || c == '-' || c == '*' || c == '/' ||
    c == '(' || c == ')' || c == '.'

def skipWs (cs : List Char) : List Char := cs.dropWhile isJsSpace

/-- One JS numeric literal (strict mode): `digits ['.' digits*]` or
`'.' digits+`; a leading `0` followed by more digits is a syntax error in
strict mode. -/
def parseNumber (cs : List Char) : Option (ℚ × List Char) :=
  match cs with
  | '.' :: rest =>
    let ds := rest.takeWhile Char.isDigit
    if ds = [] then none
    else some (((natOfDigits ds : ℕ) : ℚ) / (((10 ^ ds.length : ℕ) : ℕ) : ℚ), rest.drop ds.length)
  | c :: _ =>
    if c.isDigit then
      let ds := cs.takeWhile Char.isDigit
      if 2 ≤ ds.length ∧ ds.head? = some '0' then none
      else
        match cs.drop ds.length with
        | '.' :: rest2 =>
          let fs := rest2.takeWhile Char.isDigit
          some (((natOfDigits ds : ℕ) : ℚ) + ((natOfDigits fs : ℕ) : ℚ) / (((10 ^ fs.length : ℕ) : ℕ) : ℚ),
                rest2.drop fs.length)
        | restN => some (((natOfDigits ds : ℕ) : ℚ), restN)
    else none
  | [] => none

/-- Two directly adjacent identical sign characters anywhere in the source.
The JS lexer munches maximally, so such a pair always produces a `--` or
`++` update-operator token; in the whitelisted character set no valid
assignment target exists, so the strict-mode `Function` evaluation always
fails with an early SyntaxError (the classic reason `3--5` is an error
while `3- -5` is `8`). -/
def hasAdjacentSignPair : List Char → Bool
  | c1 :: c2 :: rest =>
    (c1 == '-' && c2 == '-') || (c1 == '+' && c2 == '+') ||
      hasAdjacentSignPair (c2 :: rest)
  | _ => false

/-- The two-character `**` exponentiation token (its asterisks must be
directly adjacent; `* *` is two multiplication tokens). -/
def powTokTake (cs : List Char) : Option (List Char) :=
  match cs with
  | '*' :: '*' :: rest => some rest
  | _ => none

/-- JS `**` on rationals.  An integer exponent is exact (`0 ** negative` is
`Infinity`, hence a failure); a non-integer exponent is irrational-valued in
general (`Math.pow` territory, like the abstracted `MathOps` operations) and
lies outside the rational model. -/
def jsPow (base rhs : ℚ) : Option ℚ :=
  if rhs.den = 1 then
    if base = 0 ∧ rhs.num < 0 then none
    else if 0 ≤ rhs.num then some (base ^ rhs.num.toNat)
    else some ((base ^ (-rhs.num).toNat)⁻¹)
  else none

mutual

/-- A primary expression: `'(' expr ')' | number`. -/
def parseAtomF : ℕ → List Char → Option (ℚ × List Char)
  | 0, _ => none
  | fuel + 1, cs =>
    match skipWs cs with
    | '(' :: rest =>
      match parseExprF fuel rest with
      | some (v, r) =>
        match skipWs r with
        | ')' :: r2 => some (v, r2)
        | _ => none
      | none => none
    | cs2 => parseNumber cs2

/-- A JS UnaryExpression: `('+'|'-')* atom` — a sign chain never consumes a
following `**`, which mirrors the grammar restriction making `-2**2` a
SyntaxError. -/
def parseUnaryF : ℕ → List Char → Option (ℚ × List Char)
  | 0, _ => none
  | fuel + 1, cs =>
    match skipWs cs with
    | '+' :: rest => parseUnaryF fuel rest
    | '-' :: rest =>
      match parseUnaryF fuel rest with
      | some (v, r) => some (-v, r)
      | none => none
    | cs2 => parseAtomF fuel cs2

/-- A JS ExponentiationExpression:
`factor := ('+'|'-') unary | atom ('**' factor)?` — `**` is
right-associative, its right operand may be signed, and its left operand may
not carry an explicit sign. -/
def parseFactorF : ℕ → List Char → Option (ℚ × List Char)
  | 0, _ => none
  | fuel + 1, cs =>
    match skipWs cs with
    | '+' :: rest => parseUnaryF fuel rest
    | '-' :: rest =>
      match parseUnaryF fuel rest with
      | some (v, r) => some (-v, r)
      | none => none
    | cs2 =>
      match parseAtomF fuel cs2 with
      | some (v, r) =>
        match powTokTake (skipWs r) with
        | some r2 =>
          match parseFactorF fuel r2 with
          | some (e, r3) =>
            match jsPow v e with
            | some res => some (res, r3)
            | none => none
          | none => none
        | none => some (v, r)
      | none => none

/-- `term := factor (('*'|'/') factor)*`; a zero divisor is rejected,
modelling the engine's non-finite result check. -/
def parseTermF : ℕ → List Char → Option (ℚ × List Char)
  | 0, _ => none
  | fuel + 1, cs =>
    match parseFactorF fuel cs with
    | some (v, r) => parseTermTailF fuel v r
    | none => none

def parseTermTailF : ℕ → ℚ → List Char → Option (ℚ × List Char)
  | 0, _, _ => none
  | fuel + 1, acc, cs =>
    match skipWs cs with
    | '*' :: rest =>
      match parseFactorF fuel rest with
      | some (v, r) => parseTermTailF fuel (acc * v) r
      | none => none
    | '/' :: rest =>
      match parseFactorF fuel rest with
      | some (v, r) => if v = 0 then none else parseTermTailF fuel (acc / v) r
      | none => none
    | _ => some (acc, cs)

/-- `expr := term (('+'|'-') term)*`. -/
def parseExprF : ℕ → List Char → Option (ℚ × List Char)
  | 0, _ => none
  | fuel + 1, cs =>
    match parseTermF fuel cs with
    | some (v, r) => parseExprTailF fuel v r
    | none => none

def parseExprTailF : ℕ → ℚ → List Char → Option (ℚ × List Char)
  | 0, _, _ => none
  | fuel + 1, acc, cs =>
    match skipWs cs with
    | '+' :: rest =>
      match parseTermF fuel rest with
      | some (v, r) => parseExprTailF fuel (acc + v) r
      | none => none
    | '-' :: rest =>
      match parseTermF fuel rest with
      | some (v, r) => parseExprTailF fuel (acc - v) r
      | none => none
    | _ => some (acc, cs)

end

/-- Evaluation of a whitelisted arithmetic string with JS's standard
precedence; `none` on a lexical or syntax error (including the maximal-munch
`--`/`++` update-operator tokens, which never have a valid target here) and
on a division by zero or `0 ** negative` (non-finite results). -/
def evalArith (cs : List Char) : Option ℚ :=
  if hasAdjacentSignPair cs then none
  else
    match parseExprF (6 * cs.length + 16) cs with
    | some (v, r) => if skipWs r = [] then some v else none
    | none => none

def mathInvalidMsg (e : List Char) : String :=
  "Neplatný výraz: \"" ++ String.mk e ++ "\" (povoleny: čísla, +,-,*,/,()"

def mathErrMsg (e : List Char) : String :=
  "Chyba výrazu \"" ++ String.mk e ++ "\""

/-- `DSLParser.math` (engine.js lines 364-373). -/
def mathF (expr : List Char) : Except String ℚ :=
  let e := jsTrim expr
  if e ≠ [] ∧ e.all isMathChar then
    match evalArith e with
    | some r => .ok (round3 r)
    | none => .error (mathErrMsg e)
  else .error (mathInvalidMsg e)

/-- `DSLParser.math` on a `String`. -/
def math (s : String) : Except String ℚ := mathF s.data

def isOkE {ε α : Type} : Except ε α → Bool
  | .ok _ => true
  | .error _ => false

instance {ε α : Type} [DecidableEq ε] [DecidableEq α] : DecidableEq (Except ε α) :=
  fun x y =>
    match x, y with
    | .ok a, .ok b =>
      if h : a = b then .isTrue (by rw [h]) else .isFalse (by intro hc; cases hc; exact h rfl)
    | .error a, .error b =>
      if h : a = b then .isTrue (by rw [h]) else .isFalse (by intro hc; cases hc; exact h rfl)
    | .ok _, .error _ => .isFalse (by intro hc; cases hc)
    | .error _, .ok _ => .isFalse (by intro hc; cases hc)

/-- `fromTo` record of an angled (from/to) board. -/
structure FromTo where
  x1 : ℚ
  y1 : ℚ
  x2 : ℚ
  y2 : ℚ
deriving DecidableEq

/-- The `cuts` record: per-edge trim values, `none` = not given. -/
structure Cuts where
  left : Option ℚ
  right : Option ℚ
  top : Option ℚ
  bottom : Option ℚ
deriving DecidableEq

/-- A fully resolved board entity (engine.js lines 289-290). -/
structure Board where
  id : String
  name : String
  w : ℚ
  h : ℚ
  d : ℚ
  x : Option ℚ
  y : Option ℚ
  z : Option ℚ
  hasPos : Bool
  color : String
  visible : Bool
  view : Option String
  angle : ℚ
  fromTo : Option FromTo
  cuts : Option Cuts
deriving DecidableEq

/-- The operations the engine takes from the JS `Math` object.  They are
irrational-valued on most inputs, so the embedding abstracts them; every
theorem about the engine is stated for an arbitrary interpretation. -/
structure MathOps where
  sqrt : ℚ → ℚ
  atan2 : ℚ → ℚ → ℚ
  pi : ℚ
  cos : ℚ → ℚ
  sin : ℚ → ℚ

/-- `this.vars`: a JS object used as a string-keyed dictionary. -/
def VarMap : Type := List (String × ℚ)

/-- `this.reg`: the id → Board registry. -/
def RegMap : Type := List (String × Board)

def lookupA {α : Type} : List (String × α) → String → Option α
  | [], _ => none
  | (k2, v) :: rest, k => if k2 = k then some v else lookupA rest k

def setA {α : Type} : List (String × α) → String → α → List (String × α)
  | [], k, v => [(k, v)]
  | (k2, v2) :: rest, k, v =>
    if k2 = k then (k2, v) :: rest else (k2, v2) :: setA rest k v

/-- The 12-color palette (engine.js lines 61-65). -/
def AUTO_COLORS : List String :=
  ["#c9a05a", "#b8864a", "#d4b87a", "#a07040",
   "#e8c99a", "#8b6035", "#daa060", "#c08040",
   "#7a6050", "#d4a080", "#b09070", "#9a7055"]

def max4 (a b c d : ℚ) : ℚ := max (max a b) (max c d)

def min4 (a b c d : ℚ) : ℚ := min (min a b) (min c d)

def propErrMsg (p id : String) : String :=
  "Neznámá vlastnost ." ++ p ++ " na [" ++ id ++ "]"

/-- `DSLParser.prop` (engine.js lines 333-362). -/
def prop (ops : MathOps) (b : Board) (p : String) (id : String) : Except String ℚ :=
  let x := b.x.getD 0
  let y := b.y.getD 0
  let z := b.z.getD 0
  if p = "x" then .ok x else if p = "y" then .ok y else if p = "z" then .ok z
  else if p = "w" then .ok b.w else if p = "h" then .ok b.h else if p = "d" then .ok b.d
  else if p = "back" then .ok (z + b.d)
  else if p = "angle" then .ok b.angle
  else if b.angle ≠ 0 then
    let rad := b.angle * ops.pi / 180
    let co := ops.cos rad
    let si := ops.sin rad
    let xA := x
    let xB := x + b.w * co
    let xC := x + b.w * co - b.h * si
    let xD := x - b.h * si
    let yA := y
    let yB := y + b.w * si
    let yC := y + b.w * si + b.h * co
    let yD := y + b.h * co
    if p = "right" then .ok (max4 xA xB xC xD)
    else if p = "top" then .ok (max4 yA yB yC yD)
    else if p = "cx" then .ok ((min4 xA xB xC xD + max4 xA xB xC xD) / 2)
    else if p = "cy" then .ok ((min4 yA yB yC yD + max4 yA yB yC yD) / 2)
    else if p = "x2" then .ok (x + b.w * co)
    else if p = "y2" then .ok (y + b.w * si)
    else .error (propErrMsg p id)
  else
    if p = "right" then .ok (x + b.w) else if p = "top" then .ok (y + b.h)
    else if p = "cx" then .ok (x + b.w / 2) else if p = "cy" then .ok (y + b.h / 2)
    else if p = "x2" then .ok (x + b.w) else if p = "y2" then .ok y
    else .error (propErrMsg p id)

/-- Longest identifier `[a-zA-Z_]\w*` at the head of the list, `[]` if none. -/
def identTake (cs : List Char) : List Char :=
  match cs with
  | c :: rest => if isIdentStart c then c :: rest.takeWhile isWordChar else []
  | [] => []

/-- Step 1 of `DSLParser.eval`: replace every `$name` via the variable map;
unknown names fail.  Replacement text is spliced without rescanning, as in
JS `String.prototype.replace`. -/
def substVars (vars : VarMap) : ℕ → List Char → Except String (List Char)
  | 0, _ => .ok []
  | _ + 1, [] => .ok []
  | fuel + 1, '$' :: rest =>
    let nm := identTake rest
    if nm = [] then
      match substVars vars fuel rest with
      | .ok t => .ok ('$' :: t)
      | .error e => .error e
    else
      match lookupA vars (String.mk nm) with
      | some v =>
        match substVars vars fuel (rest.drop nm.length) with
        | .ok t => .ok ((numToString v).data ++ t)
        | .error e => .error e
      | none => .error ("Neznámá proměnná $" ++ String.mk nm)
  | fuel + 1, c :: rest =>
    match substVars vars fuel rest with
    | .ok t => .ok (c :: t)
    | .error e => .error e

/-- Attempt the body of a `{id.prop}` reference: the input is the text after
the opening brace; returns the id, the property name and the rest after the
closing brace. -/
def propRefTake (cs : List Char) : Option (List Char × List Char × List Char) :=
  let nm := identTake cs
  if nm = [] then none else
  match cs.drop nm.length with
  | '.' :: rest2 =>
    let pn := rest2.takeWhile Char.isAlphanum
    if pn = [] then none else
    match rest2.drop pn.length with
    | c :: rest3 => if c = rbrace then some (nm, pn, rest3) else none
    | [] => none
  | _ => none

/-- Step 2 of `DSLParser.eval`: replace every `{id.prop}` using the registry
and the property resolver. -/
def substProps (ops : MathOps) (reg : RegMap) : ℕ → List Char → Except String (List Char)
  | 0, _ => .ok []
  | _ + 1, [] => .ok []
  | fuel + 1, c :: rest =>
    if c = lbrace then
      match propRefTake rest with
      | some (nm, pn, rest3) =>
        match lookupA reg (String.mk nm) with
        | none => .error ("Neznámé ID [" ++ String.mk nm ++ "]")
        | some b =>
          match prop ops b (String.mk pn) (String.mk nm) with
          | .error e => .error e
          | .ok v =>
            match substProps ops reg fuel rest3 with
            | .ok t => .ok ((numToString v).data ++ t)
            | .error e => .error e
      | none =>
        match substProps ops reg fuel rest with
        | .ok t => .ok (c :: t)
        | .error e => .error e
    else
      match substProps ops reg fuel rest with
      | .ok t => .ok (c :: t)
      | .error e => .error e

/-- The four argument groups of `LEN\(([^,]+),([^,]+),([^,]+),([^)]+)\)`;
the input is the text after `LEN(`. -/
def lenArgsTake (cs : List Char) :
    Option (List Char × List Char × List Char × List Char × List Char) :=
  let a1 := cs.takeWhile (fun c => c ≠ ',')
  if a1 = [] then none else
  match cs.drop a1.length with
  | ',' :: r1 =>
    let a2 := r1.takeWhile (fun c => c ≠ ',')
    if a2 = [] then none else
    match r1.drop a2.length with
    | ',' :: r2 =>
      let a3 := r2.takeWhile (fun c => c ≠ ',')
      if a3 = [] then none else
      match r2.drop a3.length with
      | ',' :: r3 =>
        let a4 := r3.takeWhile (fun c => c ≠ ')')
        if a4 = [] then none else
        match r3.drop a4.length with
        | ')' :: r4 => some (a1, a2, a3, a4, r4)
        | _ => none
      | _ => none
    | _ => none
  | _ => none

/-- Case-insensitive match of `LEN(` at the head, returning the arguments. -/
def lenMatchTake (cs : List Char) :
    Option (List Char × List Char × List Char × List Char × List Char) :=
  match cs with
  | c0 :: c1 :: c2 :: '(' :: rest =>
    if c0.toLower == 'l' && c1.toLower == 'e' && c2.toLower == 'n' then lenArgsTake rest
    else none
  | _ => none

/-- Step 3 of `DSLParser.eval`: replace `LEN(x1,y1,x2,y2)` by the Euclidean
distance; each argument goes through `mathF` (not through steps 1-3). -/
def substLEN (ops : MathOps) : ℕ → List Char → Except String (List Char)
  | 0, _ => .ok []
  | _ + 1, [] => .ok []
  | fuel + 1, c0 :: rest0 =>
    match lenMatchTake (c0 :: rest0) with
    | some (a1, a2, a3, a4, r4) =>
      match mathF a1 with
      | .error e => .error e
      | .ok vx1 =>
        match mathF a2 with
        | .error e => .error e
        | .ok vy1 =>
          match mathF a3 with
          | .error e => .error e
          | .ok vx2 =>
            match mathF a4 with
            | .error e => .error e
            | .ok vy2 =>
              let dist := ops.sqrt ((vx2 - vx1) ^ 2 + (vy2 - vy1) ^ 2)
              match substLEN ops fuel r4 with
              | .ok t => .ok ((numToString dist).data ++ t)
              | .error e => .error e
    | none =>
      match substLEN ops fuel rest0 with
      | .ok t => .ok (c0 :: t)
      | .error e => .error e

/-- `DSLParser.eval` (engine.js lines 311-331): the 4-phase pipeline. -/
def eval (ops : MathOps) (vars : VarMap) (reg : RegMap) (expr : List Char) :
    Except String ℚ :=
  match substVars vars (expr.length + 1) expr with
  | .error e => .error e
  | .ok e1 =>
    match substProps ops reg (e1.length + 1) e1 with
    | .error e => .error e
    | .ok e2 =>
      match substLEN ops (e2.length + 1) e2 with
      | .error e => .error e
      | .ok e3 => mathF e3

/-- Case-insensitive "starts with" where the first list is already
lower-case. -/
def ciStartsWithL : List Char → List Char → Bool
  | [], _ => true
  | _ :: _, [] => false
  | k :: ks, c :: cs => k == c.toLower && ciStartsWithL ks cs

/-- Scanner behind `DSLParser.findKeyword`: position `i`, previous character,
bracket depth of the prefix, remaining text. -/
def findKeywordAux (kw : List Char) : ℕ → Option Char → ℤ → List Char → Option ℕ
  | _, _, _, [] => none
  | i, prev, depth, c :: rest =>
    let boundaryBefore := match prev with | none => true | some p => !(isWordChar p)
    let here := c :: rest
    let boundaryAfter := match here.drop kw.length with
      | [] => true
      | c2 :: _ => !(isWordChar c2)
    if boundaryBefore && ciStartsWithL kw here && boundaryAfter && depth == 0 then some i
    else findKeywordAux kw (i + 1) (some c) (depth + depthDelta c) rest

/-- `DSLParser.findKeyword` (engine.js lines 100-113): first whole-word,
case-insensitive occurrence at bracket depth 0. -/
def findKeyword (s : List Char) (kw : String) : Option ℕ :=
  findKeywordAux kw.data 0 none 0 s

/-- `DSLParser.findNextKeyword` (engine.js lines 116-123): earliest match
among several keywords, ties broken by list order. -/
def findNextKeyword (s : List Char) (kws : List String) : Option (ℕ × String) :=
  kws.foldl
    (fun best kw =>
      match findKeyword s kw with
      | none => best
      | some p =>
        match best with
        | none => some (p, kw)
        | some (bp, bk) => if p < bp then some (p, kw) else some (bp, bk))
    none

def splitCoordsAux : ℤ → List Char → List Char → List (List Char)
  | _, cur, [] => [cur.reverse]
  | depth, cur, ch :: rest =>
    let depth2 := depth + depthDelta ch
    if ch == ',' && depth2 == 0 then cur.reverse :: splitCoordsAux depth2 [] rest
    else splitCoordsAux depth2 (ch :: cur) rest

/-- `DSLParser.splitCoords` (engine.js lines 299-309): split on commas at
bracket depth 0. -/
def splitCoords (s : List Char) : List (List Char) := splitCoordsAux 0 [] s

def wsRunLen (cs : List Char) : ℕ := (cs.takeWhile isJsSpace).length

/-- A match of the dimension separator `\s*[xXх]\s*(?=[0-9$({])` starting
exactly here; returns the number of characters consumed. -/
def dimSepTake (cs : List Char) : Option ℕ :=
  let a := wsRunLen cs
  match cs.drop a with
  | c :: rest =>
    if c == 'x' || c == 'X' || c == 'х' then
      let b := wsRunLen rest
      match rest.drop b with
      | d :: _ => if d.isDigit || d == '$' || d == '(' || d == lbrace then some (a + 1 + b) else none
      | [] => none
    else none
  | [] => none

def splitDimsAux : ℕ → List Char → List Char → List (List Char)
  | 0, cur, rest => [cur.reverse ++ rest]
  | _ + 1, cur, [] => [cur.reverse]
  | fuel + 1, cur, c :: rest =>
    match dimSepTake (c :: rest) with
    | some k => cur.reverse :: splitDimsAux fuel [] ((c :: rest).drop k)
    | none => splitDimsAux fuel (c :: cur) rest

/-- `dimRaw.split(/\s*[xXх]\s*(?=[0-9$({])/)` (engine.js line 140). -/
def splitDims (s : List Char) : List (List Char) := splitDimsAux (s.length + 1) [] s

/-- Does the inline-comment pattern `\s+#\s` match starting exactly here? -/
def commentCutAt (cs : List Char) : Bool :=
  let k := wsRunLen cs
  if k = 0 then false
  else match cs.drop k with
       | '#' :: c2 :: _ => isJsSpace c2
       | _ => false

/-- `rest.replace(/\s+#\s.*$/, '')` (engine.js line 155). -/
def stripInlineCommentAux : List Char → List Char
  | [] => []
  | c :: rest => if commentCutAt (c :: rest) then [] else c :: stripInlineCommentAux rest

/-- Does the optional comment tail `\s*#.*` cover this whole suffix? -/
def isCommentTail (s : List Char) : Bool :=
  match s.dropWhile isJsSpace with
  | '#' :: _ => true
  | _ => false

def varRhsTakeAux : List Char → List Char → List Char
  | acc, [] => acc.reverse
  | acc, c :: rest =>
    if isCommentTail (c :: rest) then acc.reverse else varRhsTakeAux (c :: acc) rest

/-- The lazy group `(.+?)` of the variable regex: shortest nonempty prefix
whose remaining suffix is empty or an inline comment. -/
def varRhsTake (r : List Char) : List Char :=
  match r with
  | [] => []
  | c :: rest => varRhsTakeAux [c] rest

/-- Match of `^\$([a-zA-Z_]\w*)\s*=\s*(.+?)(?:\s*#.*)?$` (engine.js line 91),
returning the name and the raw right-hand side group.  When everything after
`=` is whitespace the backtracking match assigns the last whitespace
character to the lazy group. -/
def matchVarLine (line : List Char) : Option (String × List Char) :=
  match line with
  | '$' :: rest =>
    let nm := identTake rest
    if nm = [] then none
    else
      match (rest.drop nm.length).dropWhile isJsSpace with
      | '=' :: r2 =>
        let r0 := r2.dropWhile isJsSpace
        if r0 = [] then
          match r2.getLast? with
          | none => none
          | some c => some (String.mk nm, [c])
        else some (String.mk nm, varRhsTake r0)
      | _ => none
  | _ => none

/-- The optional `(?:\[([a-zA-Z_]\w*)\])?` group of the board regex.  A
present but malformed bracket makes the whole pattern fail, because the
mandatory `\s+` can never match at `[`. -/
def boardIdTake (t0 : List Char) : Option (Option String × List Char) :=
  match t0 with
  | '[' :: rest =>
    let nm := identTake rest
    if nm = [] then none
    else
      match rest.drop nm.length with
      | ']' :: rest2 => some (some (String.mk nm), rest2)
      | _ => none
  | _ => some (none, t0)

/-- Viability of a split point for the lazy dims group: the suffix must be
`\s+` then `"`, then a nonempty run of non-quote characters, then `"`.
Returns the name and the text after the closing quote. -/
def boardTailViable (s : List Char) : Option (String × List Char) :=
  let k := wsRunLen s
  if k = 0 then none
  else
    match s.drop k with
    | '"' :: rest =>
      let nm := rest.takeWhile (fun c => c ≠ '"')
      if nm = [] then none
      else
        match rest.drop nm.length with
        | '"' :: rest2 => some (String.mk nm, rest2)
        | _ => none
    | _ => none

/-- The split points for the lazy `(.+?)` dims group in backtracking order:
with the leading `\s+` maximal first (end positions `R+1 .. n` ascending),
then shrinking the leading run (end positions `R` down to `2`). -/
def boardSplitCandidates (T : List Char) : List ℕ :=
  let R := wsRunLen T
  let n := T.length
  List.range' (R + 1) (n - R) ++ (List.range' 2 (R - 1)).reverse

/-- Match of the board shape regex
`^board(?:\[([a-zA-Z_]\w*)\])?\s+(.+?)\s+"([^"]+)"\s*(.*?)$` (engine.js
line 127), returning the raw id, dims, name and rest groups. -/
def matchBoardLine (line : List Char) :
    Option (Option String × List Char × String × List Char) :=
  if ciStartsWithL "board".data line then
    match boardIdTake (line.drop 5) with
    | none => none
    | some (idOpt, T) =>
      if wsRunLen T = 0 then none
      else
        match (boardSplitCandidates T).findSome? (fun e =>
          match boardTailViable (T.drop e) with
          | some (nm, r) => some (e, nm, r)
          | none => none) with
        | none => none
        | some (e, nm, r) =>
          let w1 := min (wsRunLen T) (e - 1)
          some (idOpt, (T.take e).drop w1, nm, r.dropWhile isJsSpace)
  else none

/-- Result of the position step of `DSLParser.parseBoard`, including the
possibly corrected width and the unconsumed remainder text. -/
structure PosInfo where
  x : Option ℚ
  y : Option ℚ
  z : Option ℚ
  hasPos : Bool
  angle : ℚ
  fromTo : Option FromTo
  w : ℚ
  rest : List Char
deriving DecidableEq

/-- Angle, corrected width and warning of the from/to geometry block
(engine.js lines 192-197). -/
structure FtGeom where
  angle : ℚ
  w : ℚ
  warns : List String
deriving DecidableEq

def widthWarnMsg (ln : ℕ) (name : String) (w actual : ℚ) : String :=
  "Řádek " ++ toString ln ++ " (" ++ name ++ "): Šířka " ++ numToString w ++
    " se liší od vzdálenosti from/to " ++ toString (roundInt actual) ++ ", použita vzdálenost"

/-- The from/to geometry block (engine.js lines 192-197): angle from
`Math.atan2` in degrees, width replaced by the rounded endpoint distance,
and a non-fatal warning when the declared width is off by more than 1. -/
def fromToGeom (ops : MathOps) (ln : ℕ) (name : String) (w x1 y1 x2 y2 : ℚ) : FtGeom :=
  let angle := ops.atan2 (y2 - y1) (x2 - x1) * 180 / ops.pi
  let actualW := ops.sqrt ((x2 - x1) ^ 2 + (y2 - y1) ^ 2)
  { angle := angle,
    w := round3 actualW,
    warns := if |w - actualW| > 1 then [widthWarnMsg ln name w actualW] else [] }

/-- The optional `z <expr>` after the `to` coordinates (engine.js lines
201-215); when absent or not at the start of the remainder, `z` stays 0. -/
def zParse (ops : MathOps) (vars : VarMap) (reg : RegMap) (rest : List Char) :
    Except String (ℚ × List Char) :=
  match findKeyword rest "z" with
  | some zPos =>
    if jsTrim (rest.take zPos) = [] then
      let afterZ := jsTrim (rest.drop (zPos + 1))
      match findNextKeyword afterZ ["cut", "view", "color"] with
      | some (p, _) =>
        match eval ops vars reg (jsTrim (afterZ.take p)) with
        | .ok zv => .ok (zv, jsTrim (afterZ.drop p))
        | .error e => .error e
      | none =>
        match eval ops vars reg (jsTrim afterZ) with
        | .ok zv => .ok (zv, [])
        | .error e => .error e
    else .ok (0, rest)
  | none => .ok (0, rest)

/-- The position step of `DSLParser.parseBoard` (engine.js lines 157-233):
`from X1,Y1 to X2,Y2 [z Z]` (checked first) or `at X,Y,Z`, or nothing.
The warning list is kept even when a later part of the step fails. -/
def parsePosition (ops : MathOps) (vars : VarMap) (reg : RegMap) (ln : ℕ)
    (name : String) (w : ℚ) (rest : List Char) : List String × Except String PosInfo :=
  match findKeyword rest "from" with
  | some fromPos =>
    let afterFrom := rest.drop (fromPos + 4)
    (match findKeyword afterFrom "to" with
     | none => ([], .error "\x27from\x27 vyžaduje \x27to\x27")
     | some toPos =>
       match splitCoords (jsTrim (afterFrom.take toPos)) with
       | [fa, fb] =>
         let afterTo := jsTrim (afterFrom.drop (toPos + 2))
         let nk := findNextKeyword afterTo ["z", "cut", "view", "color"]
         let toStr := match nk with
           | some (p, _) => jsTrim (afterTo.take p)
           | none => jsTrim afterTo
         let afterToRest := match nk with
           | some (p, _) => jsTrim (afterTo.drop p)
           | none => []
         match splitCoords toStr with
         | [ta, tb] =>
           (match (do
              let x1 ← eval ops vars reg (jsTrim fa)
              let y1 ← eval ops vars reg (jsTrim fb)
              let x2 ← eval ops vars reg (jsTrim ta)
              let y2 ← eval ops vars reg (jsTrim tb)
              Except.ok (x1, y1, x2, y2) : Except String (ℚ × ℚ × ℚ × ℚ)) with
            | .error e => ([], .error e)
            | .ok (x1, y1, x2, y2) =>
              let g := fromToGeom ops ln name w x1 y1 x2 y2
              match zParse ops vars reg afterToRest with
              | .error e => (g.warns, .error e)
              | .ok (zv, rest2) =>
                (g.warns,
                 .ok { x := some x1, y := some y1, z := some zv, hasPos := true,
                       angle := g.angle, fromTo := some ⟨x1, y1, x2, y2⟩,
                       w := g.w, rest := rest2 }))
         | _ => ([], .error "\x27to\x27 potřebuje 2 hodnoty (X2,Y2)")
       | _ => ([], .error "\x27from\x27 potřebuje 2 hodnoty (X1,Y1)"))
  | none =>
    match findKeyword rest "at" with
    | some atPos =>
      let afterAt := jsTrim (rest.drop (atPos + 2))
      let nk := findNextKeyword afterAt ["cut", "view", "color"]
      let atStr := match nk with
        | some (p, _) => jsTrim (afterAt.take p)
        | none => jsTrim afterAt
      let rest2 := match nk with
        | some (p, _) => jsTrim (afterAt.drop p)
        | none => []
      (match splitCoords atStr with
       | [ca, cb, cc] =>
         (match (do
            let xv ← eval ops vars reg (jsTrim ca)
            let yv ← eval ops vars reg (jsTrim cb)
            let zv ← eval ops vars reg (jsTrim cc)
            Except.ok (xv, yv, zv) : Except String (ℚ × ℚ × ℚ)) with
          | .error e => ([], .error e)
          | .ok (xv, yv, zv) =>
            ([], .ok { x := some xv, y := some yv, z := some zv, hasPos := true,
                       angle := 0, fromTo := none, w := w, rest := rest2 }))
       | _ => ([], .error "Pozice potřebuje 3 hodnoty (X, Y, Z)"))
    | none =>
      ([], .ok { x := none, y := none, z := none, hasPos := false,
                 angle := 0, fromTo := none, w := w, rest := rest })

/-- One match of `\b(left|right|top|bottom)\s+([^\s]+)` tried at the current
position: the side (lower-cased) and its consumed length. -/
def cutSideTake (cs : List Char) : Option (String × ℕ) :=
  if ciStartsWithL "left".data cs then some ("left", 4)
  else if ciStartsWithL "right".data cs then some ("right", 5)
  else if ciStartsWithL "top".data cs then some ("top", 3)
  else if ciStartsWithL "bottom".data cs then some ("bottom", 6)
  else none

/-- The scan of `cutRe` (engine.js lines 249-253) collecting all
side/value pairs left to right. -/
def noWordBefore : Option Char → Bool
  | none => true
  | some p => !(isWordChar p)

def cutPairsAux : ℕ → Option Char → List Char → List (String × List Char)
  | 0, _, _ => []
  | _ + 1, _, [] => []
  | fuel + 1, prev, c :: rest =>
    match (if noWordBefore prev then cutSideTake (c :: rest) else none) with
    | some (side, k) =>
      let after := (c :: rest).drop k
      let wr := wsRunLen after
      if wr = 0 then cutPairsAux fuel (some c) rest
      else
        let afterW := after.drop wr
        let v := afterW.takeWhile (fun ch => !(isJsSpace ch))
        if v = [] then cutPairsAux fuel (some c) rest
        else (side, v) :: cutPairsAux fuel v.getLast? (afterW.drop v.length)
    | none => cutPairsAux fuel (some c) rest

def cutPairs (s : List Char) : List (String × List Char) :=
  cutPairsAux (s.length + 1) none s

def cutsAllNull : Cuts := { left := none, right := none, top := none, bottom := none }

def setCut (c : Cuts) (side : String) (v : ℚ) : Cuts :=
  if side = "left" then { c with left := some v }
  else if side = "right" then { c with right := some v }
  else if side = "top" then { c with top := some v }
  else if side = "bottom" then { c with bottom := some v }
  else c

/-- `cuts[cm[1].toLowerCase()] = this.eval(cm[2])` over all matches. -/
def buildCuts (ops : MathOps) (vars : VarMap) (reg : RegMap) :
    Cuts → List (String × List Char) → Except String Cuts
  | c, [] => .ok c
  | c, (side, v) :: rest =>
    match eval ops vars reg v with
    | .error e => .error e
    | .ok q => buildCuts ops vars reg (setCut c side q) rest

/-- The cut step (engine.js lines 236-254). -/
def parseCutSection (ops : MathOps) (vars : VarMap) (reg : RegMap) (rest : List Char) :
    Except String (Option Cuts × List Char) :=
  match findKeyword rest "cut" with
  | none => .ok (none, rest)
  | some cutPos =>
    let afterCut := jsTrim (rest.drop (cutPos + 3))
    let nk := findNextKeyword afterCut ["view", "color"]
    let cutStr := match nk with
      | some (p, _) => jsTrim (afterCut.take p)
      | none => jsTrim afterCut
    let rest2 := match nk with
      | some (p, _) => jsTrim (afterCut.drop p)
      | none => []
    match buildCuts ops vars reg cutsAllNull (cutPairs cutStr) with
    | .ok c => .ok (some c, rest2)
    | .error e => .error e

def viewBuild : List Char → List Char → Except String (List Char)
  | acc, [] => .ok acc
  | acc, c :: rest =>
    if !(c == 'f' || c == 's' || c == 't') then
      .error ("Neplatný pohled \x27" ++ String.mk [c] ++ "\x27, povoleno: f, s, t")
    else if acc.contains c then viewBuild acc rest
    else viewBuild (acc ++ [c]) rest

/-- The view validation and dedup loop (engine.js lines 269-276). -/
def parseViewStr (viewStr : List Char) : Except String String :=
  match viewBuild [] (viewStr.map Char.toLower) with
  | .error e => .error e
  | .ok vv => if vv = [] then .error "Prázdný pohled" else .ok (String.mk vv)

/-- The view step (engine.js lines 257-277). -/
def parseViewSection (rest : List Char) : Except String (Option String × List Char) :=
  match findKeyword rest "view" with
  | none => .ok (none, rest)
  | some viewPos =>
    let afterView := jsTrim (rest.drop (viewPos + 4))
    let nk := findNextKeyword afterView ["color"]
    let viewStr := match nk with
      | some (p, _) => jsTrim (afterView.take p)
      | none => jsTrim afterView
    let rest2 := match nk with
      | some (p, _) => jsTrim (afterView.drop p)
      | none => []
    match parseViewStr viewStr with
    | .ok v => .ok (some v, rest2)
    | .error e => .error e

/-- The anchored color token match `^(#[0-9a-fA-F]{3,6})` (engine.js line
283): `#` followed by 3 to 6 hex digits, matched greedily. -/
def extractColorTok (s : List Char) : Option String :=
  match s with
  | '#' :: rest =>
    if 3 ≤ (rest.takeWhile isHexDigit).length then
      some (String.mk ('#' :: (rest.takeWhile isHexDigit).take 6))
    else none
  | _ => none

/-- The color step (engine.js lines 280-285); no match leaves the explicit
color absent without an error. -/
def parseColorSection (rest : List Char) : Option String :=
  match findKeyword rest "color" with
  | none => none
  | some colorPos => extractColorTok (jsTrim (rest.drop (colorPos + 5)))

def dimsCountMsg (k : ℕ) (dimRaw : List Char) : String :=
  "Potřebuji 3 rozměry (Š x V x H), dostal jsem " ++ toString k ++ ": \"" ++
    String.mk dimRaw ++ "\""

/-- The dimension step (engine.js lines 140-144). -/
def evalDims (ops : MathOps) (vars : VarMap) (reg : RegMap) (dimRaw : List Char) :
    Except String (ℚ × ℚ × ℚ) :=
  match splitDims dimRaw with
  | [d1, d2, d3] =>
    (do
      let w ← eval ops vars reg (jsTrim d1)
      let h ← eval ops vars reg (jsTrim d2)
      let d ← eval ops vars reg (jsTrim d3)
      Except.ok (w, h, d))
  | dims => .error (dimsCountMsg dims.length dimRaw)

/-- Everything `parseBoard`'s try-block extracts before the board object is
assembled; `colorOpt` is the explicit color, if any. -/
structure BoardParts where
  w : ℚ
  h : ℚ
  d : ℚ
  x : Option ℚ
  y : Option ℚ
  z : Option ℚ
  hasPos : Bool
  angle : ℚ
  fromTo : Option FromTo
  cuts : Option Cuts
  view : Option String
  colorOpt : Option String
deriving DecidableEq

/-- The try-block of `DSLParser.parseBoard` (engine.js lines 138-290 up to
the board construction).  The first component collects the non-fatal
width-mismatch warnings, kept even when a later step fails. -/
def boardCore (ops : MathOps) (vars : VarMap) (reg : RegMap) (ln : ℕ)
    (dimRaw : List Char) (name : String) (rest0 : List Char) :
    List String × Except String BoardParts :=
  match evalDims ops vars reg dimRaw with
  | .error e => ([], .error e)
  | .ok (w, h, d) =>
    let rest1 := jsTrim (stripInlineCommentAux rest0)
    match parsePosition ops vars reg ln name w rest1 with
    | (warns, .error e) => (warns, .error e)
    | (warns, .ok pos) =>
      match parseCutSection ops vars reg pos.rest with
      | .error e => (warns, .error e)
      | .ok (cuts, rest3) =>
        match parseViewSection rest3 with
        | .error e => (warns, .error e)
        | .ok (view, rest4) =>
          (warns, .ok { w := pos.w, h := h, d := d, x := pos.x, y := pos.y, z := pos.z,
                        hasPos := pos.hasPos, angle := pos.angle, fromTo := pos.fromTo,
                        cuts := cuts, view := view, colorOpt := parseColorSection rest4 })

/-- Board assembly (engine.js lines 287-290): palette fallback indexed by
the number of boards created so far, then the record. -/
def mkBoard (id name : String) (nBoards : ℕ) (p : BoardParts) : Board :=
  { id := id, name := name, w := p.w, h := p.h, d := p.d, x := p.x, y := p.y, z := p.z,
    hasPos := p.hasPos,
    color := p.colorOpt.getD (AUTO_COLORS.getD (nBoards % AUTO_COLORS.length) ""),
    visible := true, view := p.view, angle := p.angle, fromTo := p.fromTo, cuts := p.cuts }

/-- The whole mutable state of one `DSLParser` session. -/
structure ParserState where
  vars : VarMap
  boards : List Board
  errors : List String
  reg : RegMap
  varCount : ℕ

def pushError (st : ParserState) (e : String) : ParserState :=
  { st with errors := st.errors ++ [e] }

def boardPatternMsg (ln : ℕ) : String :=
  "Řádek " ++ toString ln ++ ": neplatný board (vzor: board[id] ŠxVxH \"název\")"

def dupIdMsg (ln : ℕ) (id : String) : String :=
  "Řádek " ++ toString ln ++ ": duplicitní ID [" ++ id ++ "]"

def boardErrMsg (ln : ℕ) (name msg : String) : String :=
  "Řádek " ++ toString ln ++ " (" ++ name ++ "): " ++ msg

/-- `DSLParser.parseBoard` (engine.js lines 125-296). -/
def parseBoard (ops : MathOps) (st : ParserState) (line : List Char) (ln : ℕ) :
    ParserState :=
  match matchBoardLine line with
  | none => pushError st (boardPatternMsg ln)
  | some (idOpt, dimRaw0, name, rest0) =>
    if (lookupA st.reg (idOpt.getD ("b" ++ toString st.boards.length))).isSome then
      pushError st (dupIdMsg ln (idOpt.getD ("b" ++ toString st.boards.length)))
    else
      match boardCore ops st.vars st.reg ln (jsTrim dimRaw0) name (jsTrim rest0) with
      | (warns, .error e) =>
        { st with errors := st.errors ++ warns ++ [boardErrMsg ln name e] }
      | (warns, .ok parts) =>
        { st with
          boards := st.boards ++
            [mkBoard (idOpt.getD ("b" ++ toString st.boards.length)) name
              st.boards.length parts],
          reg := setA st.reg (idOpt.getD ("b" ++ toString st.boards.length))
            (mkBoard (idOpt.getD ("b" ++ toString st.boards.length)) name
              st.boards.length parts),
          errors := st.errors ++ warns }

/-- `DSLParser.parseVar` (engine.js lines 90-97).  Note the assignment
`this.vars[m[1]] = ...` overwrites an existing binding. -/
def parseVar (ops : MathOps) (st : ParserState) (line : List Char) (ln : ℕ) :
    ParserState :=
  match matchVarLine line with
  | none => pushError st ("Řádek " ++ toString ln ++ ": neplatná definice proměnné")
  | some (nm, rhs) =>
    match eval ops st.vars st.reg (jsTrim rhs) with
    | .ok v => { st with vars := setA st.vars nm v, varCount := st.varCount + 1 }
    | .error e => pushError st ("Řádek " ++ toString ln ++ " ($" ++ nm ++ "): " ++ e)

def isLineComment (line : List Char) : Bool :=
  match line with
  | '/' :: '/' :: _ => true
  | _ => false

/-- The per-line dispatch of `DSLParser.parse` (engine.js lines 79-86).
Every raw line is trimmed and handled independently; there is no
continuation joining of indented lines. -/
def parseLine (ops : MathOps) (st : ParserState) (raw : List Char) (ln : ℕ) :
    ParserState :=
  let line := jsTrim raw
  if line = [] then st
  else if line.head? = some '#' then st
  else if isLineComment line then st
  else if line.head? = some '$' then parseVar ops st line ln
  else if ciStartsWithL "board".data line then parseBoard ops st line ln
  else pushError st ("Řádek " ++ toString ln ++ ": neznámý příkaz")

/-- JS `text.split('\n')`. -/
def splitOnNlAux : List Char → List Char → List (List Char)
  | cur, [] => [cur.reverse]
  | cur, '\n' :: rest => cur.reverse :: splitOnNlAux [] rest
  | cur, c :: rest => splitOnNlAux (c :: cur) rest

def parseLinesAux (ops : MathOps) : ParserState → ℕ → List (List Char) → ParserState
  | st, _, [] => st
  | st, i, l :: rest => parseLinesAux ops (parseLine ops st l (i + 1)) (i + 1) rest

/-- The result object of `DSLParser.parse` (engine.js line 87). -/
structure ParseResult where
  boards : List Board
  errors : List String
  varCount : ℕ
deriving DecidableEq

def emptyState : ParserState :=
  { vars := [], boards := [], errors := [], reg := [], varCount := 0 }

/-- `DSLParser.parse` on a fresh session (engine.js lines 67-88). -/
def parse (ops : MathOps) (text : String) : ParseResult :=
  let st := parseLinesAux ops emptyState 0 (splitOnNlAux [] text.data)
  { boards := st.boards, errors := st.errors, varCount := st.varCount }

/-- `parseDSL` (engine.js lines 376-378). -/
def parseDSL (ops : MathOps) (text : String) : ParseResult := parse ops text

/-- At least one of the four cut entries is set. -/
def hasAnyCut (c : Cuts) : Bool :=
  c.left.isSome || c.right.isSome || c.top.isSome || c.bottom.isSome

/-- `hasCuts` (engine.js lines 397-399). -/
def hasCuts (b : Board) : Bool :=
  match b.cuts with
  | none => false
  | some c => hasAnyCut c

/-- `boardShape` (engine.js lines 400-412): the derived cut polygon. -/
def boardShape (b : Board) : List (ℚ × ℚ) :=
  let lh := (b.cuts.bind Cuts.left).getD b.h
  let rh := (b.cuts.bind Cuts.right).getD b.h
  let bw := (b.cuts.bind Cuts.bottom).getD b.w
  let tw := (b.cuts.bind Cuts.top).getD b.w
  [(0, 0), (bw, 0), (tw, rh), (0, lh)]

structure Face where
  view : String
  area : ℚ
deriving DecidableEq

def insertFaceDesc (x : Face) : List Face → List Face
  | [] => [x]
  | y :: ys => if y.area ≥ x.area then y :: insertFaceDesc x ys else x :: y :: ys

/-- Stable descending sort by area, modelling the stable JS
`sort((a, c) => c.area - a.area)`. -/
def sortFacesDesc (l : List Face) : List Face :=
  l.foldl (fun acc x => insertFaceDesc x acc) []

/-- `autoDetectViews` (engine.js lines 423-431). -/
def autoDetectViews (b : Board) : String :=
  let faces : List Face := [⟨"f", b.w * b.h⟩, ⟨"s", b.d * b.h⟩, ⟨"t", b.w * b.d⟩]
  match sortFacesDesc faces with
  | f0 :: f1 :: _ => f0.view ++ f1.view
  | _ => ""

/-- The auto-view result as the spec words it: the stable descending order
of the faces `f, s, t` by projected area (a strictly larger area moves a
later face ahead; ties keep the listed order), concatenating the top two
letters. -/
def autoDetectViewsSpec (b : Board) : String :=
  let f := b.w * b.h
  let s := b.d * b.h
  let t := b.w * b.d
  if s > f then
    if t > s then "ts" else if t > f then "st" else "sf"
  else
    if t > f then "tf" else if t > s then "ft" else "fs"

/-- A concrete interpretation of the JS `Math` operations used to run the
embedding on closed inputs (only `sqrt 10000` and `sqrt 25` matter for
the inputs exercised below). -/
def testOps : MathOps :=
  { sqrt := fun q => if q = 10000 then 100 else if q = 25 then 5 else 0,
    atan2 := fun _ _ => 0,
    pi := 355/113,
    cos := fun _ => 1,
    sin := fun _ => 0 }

/-- The board registered before the duplicate-id witness line. -/
def c2WitBoard : Board :=
  { id := "a", name := "A", w := 1, h := 2, d := 3, x := none, y := none, z := none,
    hasPos := false, color := "#c9a05a", visible := true, view := none, angle := 0,
    fromTo := none, cuts := none }

/-- The board `board[a] 100 x 20 x 50 "T" from 0,0 to 100,0` produces under
`testOps`. -/
def c4WitBoard : Board :=
  { id := "a", name := "T", w := 100, h := 20, d := 50, x := some 0, y := some 0,
    z := some 0, hasPos := true, color := "#c9a05a", visible := true, view := none,
    angle := 0, fromTo := some ⟨0, 0, 100, 0⟩, cuts := none }

end Draftmaid

namespace Draftmaid

example : math "1/3" = .ok (333/1000) := by decide

example : isOkE (math "1/0") = false := by decide

example : math "(100+50)*2" = .ok 300 := by decide

example : math "1.5+2.5" = .ok 4 := by decide

example : isOkE (math "abc") = false := by decide

example : isOkE (math "3--5") = false := by decide

example : isOkE (math "1++2") = false := by decide

example : isOkE (math "--5") = false := by decide

example : math "3- -5" = .ok 8 := by decide

example : math "5+-5" = .ok 0 := by decide

example : math "2**3" = .ok 8 := by decide

example : math "2 ** 3" = .ok 8 := by decide

example : math "2**-2" = .ok (1/4) := by decide

example : math "2**3**2" = .ok 512 := by decide

example : math "(0-2)**2" = .ok 4 := by decide

example : isOkE (math "-2**2") = false := by decide

example : isOkE (math "2* *3") = false := by decide

example : isOkE (math "0**-1") = false := by decide

example : math "2*3**2" = .ok 18 := by decide

example : numToString (333/1000) = "0.333" := by decide

example : numToString (18 : ℚ) = "18" := by decide

example : numToString (-5 : ℚ) = "-5" := by decide

example : round3 (1/3) = 333/1000 := by decide

example : (findKeyword "at 10,20,30".data "at").isSome = true := by decide

example : findKeyword "(at+5)".data "at" = none := by decide

example : findKeyword "AT 10,20,30".data "at" = some 0 := by decide

example : findNextKeyword "view f color #abc".data ["view", "color"] = some (0, "view") := by decide

example : findNextKeyword "hello".data ["at", "cut"] = none := by decide

example : splitCoords "0,0,0".data = ["0".data, "0".data, "0".data] := by decide

example : (splitCoords "(1+2),3".data).length = 2 := by decide

example : splitCoords "42".data = ["42".data] := by decide

example : splitDims "100 x 200 x 50".data = ["100".data, "200".data, "50".data] := by decide

example : (splitDims "100 x 200".data).length = 2 := by decide

example : matchVarLine "$T = 18".data = some ("T", "18".data) := by decide

example : matchVarLine "$T  = 18        # tloušťka desky [mm]".data = some ("T", "18".data) := by decide

example : matchVarLine "$=bad".data = none := by decide

example :
    matchBoardLine "board[a] 100 x 200 x 50 \"Test\"".data
      = some (some "a", "100 x 200 x 50".data, "Test", []) := by decide

example :
    matchBoardLine "board 100 x 200 x 50 \"Test\" at 1,2,3".data
      = some (none, "100 x 200 x 50".data, "Test", "at 1,2,3".data) := by decide

example : matchBoardLine "board[a] 100 x 200 \"Test".data = none := by decide

example : eval testOps [] [] "LEN(0,0,3,4)".data = .ok 5 := by decide

example : eval testOps [("T", 18)] [] "$T+100".data = .ok 118 := by decide

example :
    (parseDSL testOps "board[a] 100 x 200 x 50 \"Test\"").boards.map
        (fun b => (b.id, b.name, b.w, b.h, b.d, b.hasPos, b.x, b.color, b.cuts, b.view))
      = [("a", "Test", 100, 200, 50, false, none, "#c9a05a", none, none)] := by decide

example : (parseDSL testOps "board 100 x 200 x 50 \"Test\"").boards.map (fun b => b.id) = ["b0"] := by decide

example :
    (parseDSL testOps "board[a] 100 x 200 x 50 \"Test\" at 10,20,30").boards.map
        (fun b => (b.hasPos, b.x, b.y, b.z))
      = [(true, some 10, some 20, some 30)] := by decide

example :
    (parseDSL testOps "board[a] 100 x 200 x 50 \"A\"\nboard[a] 100 x 200 x 50 \"B\"").errors
      = ["Řádek 2: duplicitní ID [a]"] := by decide

example :
    (parseDSL testOps "$T = 18\nboard[a] $T x 200 x 50 \"Test\"").boards.map (fun b => b.w)
      = [18] := by decide

example : (parseDSL testOps "$T = 18").varCount = 1 := by decide

example :
    (parseDSL testOps "board[a] 100 x 20 x 50 \"Test\" from 0,0 to 100,0").boards.map
        (fun b => (b.w, b.hasPos, b.x, b.y, b.z, b.fromTo))
      = [(100, true, some 0, some 0, some 0, some ⟨0, 0, 100, 0⟩)] := by decide

example :
    (parseDSL testOps "board[a] 999 x 20 x 50 \"Test\" from 0,0 to 100,0").boards.map (fun b => b.w)
      = [100]
  ∧ (parseDSL testOps "board[a] 999 x 20 x 50 \"Test\" from 0,0 to 100,0").errors.length = 1 := by decide

example :
    (parseDSL testOps "board[a] 100 x 20 x 50 \"Test\" from 0,0 to 100,0 z 42").boards.map
        (fun b => b.z) = [some 42] := by decide

example :
    (parseDSL testOps "board[a] 500 x 400 x 50 \"Test\" cut left 300 right 200").boards.map
        (fun b => b.cuts)
      = [some { left := some 300, right := some 200, top := none, bottom := none }] := by decide

example :
    (parseDSL testOps "board[a] 100 x 200 x 50 \"A\" view fft").boards.map (fun b => b.view)
      = [some "ft"] := by decide

example :
    (parseDSL testOps "board[a] 100 x 200 x 50 \"A\" view sf").boards.map (fun b => b.view)
      = [some "sf"] := by decide

example : (parseDSL testOps "board[a] 100 x 200 x 50 \"Test\" view x").errors.length = 1 := by decide

example :
    (parseDSL testOps "board[a] 100 x 200 x 50 \"Test\" color #abc123").boards.map (fun b => b.color)
      = ["#abc123"] := by decide

example : (parseDSL testOps "foobar something").errors = ["Řádek 1: neznámý příkaz"] := by decide

example : (parseDSL testOps "board[a] 100 x 200 x 50 \"Test\" at 10,20").errors
      = ["Řádek 1 (Test): Pozice potřebuje 3 hodnoty (X, Y, Z)"] := by decide

example : (parseDSL testOps "\n\nboard[a] 100 x 200 x 50 \"Test\"\n\n").boards.length = 1 := by decide

example : (parseDSL testOps "# comment\n// another\nboard[a] 100 x 200 x 50 \"Test\"").errors = [] := by decide

example : (parseDSL testOps "Board[a] 100 x 200 x 50 \"Test\"").boards.length = 1 := by decide

example :
    (parseDSL testOps "board[a] 100 x 20 x 50 \"Test\" from 0,0 to 100,0 cut left 15 right 10 view s color #ff0000").boards.map
        (fun b => (b.w, b.cuts, b.view, b.color))
      = [(100, some { left := some 15, right := some 10, top := none, bottom := none },
          some "s", "#ff0000")] := by decide

example :
    (parseDSL testOps "$A = 10\n$B = $A+5\nboard $B x 10 x 10 \"Test\"").boards.map (fun b => b.w)
      = [15] := by decide

example :
    (parseDSL testOps "board[a] 100 x 200 x 50 \"Test\"\n  at 10, 20, 30").errors
      = ["Řádek 2: neznámý příkaz"] := by decide

example :
    (parseDSL testOps "board[a] 100 x 200 x 50 \"Test\"\n  at 10, 20, 30").boards.map
        (fun b => b.hasPos) = [false] := by decide

example :
    (parseDSL testOps "board[a] 1 x 2 x 3 \"A\" color #abcd").boards.map (fun b => b.color)
      = ["#abcd"] := by decide

example :
    (parseDSL testOps "board[a] 1 x 2 x 3 \"A\" color #ab").boards.map (fun b => b.color)
      = ["#c9a05a"] := by decide

example :
    (parseDSL testOps "board[a] 1 x 2 x 3 \"A\" color #abcdefg").boards.map (fun b => b.color)
      = ["#abcdef"] := by decide

example :
    (parseDSL testOps "board[a] 1 x 2 x 3 \"A\" cut").boards.map (fun b => b.cuts)
      = [some { left := none, right := none, top := none, bottom := none }] := by decide

example : (parseDSL testOps "board[a] 1 x 2 x 3 \"A\" cut").errors = [] := by decide

example :
    (parseDSL testOps "$T = 1\n$T = 2\nboard $T x 1 x 1 \"A\"").boards.map (fun b => b.w)
      = [2] := by decide

example : (parseDSL testOps "$T = 1\n$T = 2").varCount = 2 := by decide

example :
    (parseDSL testOps "board 1 x 2 x 3 \"A\"\nboard 4 x 5 x 6 \"B\"").boards.map (fun b => b.color)
      = ["#c9a05a", "#b8864a"] := by decide

example :
    autoDetectViews { id := "", name := "", w := 800, h := 18, d := 400, x := none, y := none,
                      z := none, hasPos := false, color := "", visible := true, view := none,
                      angle := 0, fromTo := none, cuts := none } = "tf" := by decide

example :
    autoDetectViews { id := "", name := "", w := 50, h := 60, d := 2000, x := none, y := none,
                      z := none, hasPos := false, color := "", visible := true, view := none,
                      angle := 0, fromTo := none, cuts := none } = "st" := by decide

example :
    autoDetectViews { id := "", name := "", w := 100, h := 100, d := 100, x := none, y := none,
                      z := none, hasPos := false, color := "", visible := true, view := none,
                      angle := 0, fromTo := none, cuts := none } = "fs" := by decide

example :
    boardShape { id := "", name := "", w := 500, h := 400, d := 50, x := none, y := none,
                 z := none, hasPos := false, color := "", visible := true, view := none,
                 angle := 0, fromTo := none,
                 cuts := some { left := some 300, right := some 200, top := none, bottom := none } }
      = [(0, 0), (500, 0), (500, 200), (0, 300)] := by decide

example :
    boardShape { id := "", name := "", w := 100, h := 200, d := 50, x := none, y := none,
                 z := none, hasPos := false, color := "", visible := true, view := none,
                 angle := 0, fromTo := none, cuts := none }
      = [(0, 0), (100, 0), (100, 200), (0, 200)] := by decide

theorem lookupA_setA_self {α : Type} (m : List (String × α)) (k : String) (v : α) :
    lookupA (setA m k v) k = some v := by
  induction m with
  | nil => simp [setA, lookupA]
  | cons p rest ih =>
    obtain ⟨k2, v2⟩ := p
    by_cases h : k2 = k
    · subst h; simp [setA, lookupA]
    · simp [setA, lookupA, h, ih]

theorem mem_jsTrim_of_not_space {c : Char} {cs : List Char} (hm : c ∈ cs)
    (hs : isJsSpace c = false) : c ∈ jsTrim cs := by
  have step : ∀ l : List Char, c ∈ l → c ∈ l.dropWhile isJsSpace := by
    intro l hl
    rcases List.mem_append.mp ((List.takeWhile_append_dropWhile (p := isJsSpace) (l := l)) ▸ hl) with h1 | h2
    · exact absurd (List.mem_takeWhile_imp h1) (by simp [hs])
    · exact h2
  have h1 : c ∈ jsTrimLeft cs := step cs hm
  have h2 : c ∈ jsTrimRight (jsTrimLeft cs) := by
    unfold jsTrimRight
    rw [List.mem_reverse]
    exact step _ (List.mem_reverse.mpr h1)
  exact h2

theorem parseBoard_created (ops : MathOps) (st : ParserState) (line : List Char)
    (ln : ℕ) (b : Board) :
    (parseBoard ops st line ln).boards = st.boards ++ [b] →
    ∃ idOpt dimRaw0 name rest0 warns parts,
      matchBoardLine line = some (idOpt, dimRaw0, name, rest0) ∧
      boardCore ops st.vars st.reg ln (jsTrim dimRaw0) name (jsTrim rest0)
        = (warns, .ok parts) ∧
      b = mkBoard (idOpt.getD ("b" ++ toString st.boards.length)) name
            st.boards.length parts := by
  intro h
  unfold parseBoard at h
  split at h
  · exact absurd (congrArg List.length h) (by simp [pushError])
  next idOpt dimRaw0 name rest0 heq =>
    split at h
    · exact absurd (congrArg List.length h) (by simp [pushError])
    · split at h
      · exact absurd (congrArg List.length h) (by simp)
      · rename_i warns parts heq2
        refine ⟨idOpt, dimRaw0, name, rest0, warns, parts, heq, heq2, ?_⟩
        have h2 := List.append_cancel_left h
        simpa using h2.symm

theorem parsePosition_fromTo (ops : MathOps) (vars : VarMap) (reg : RegMap)
    (ln : ℕ) (name : String) (w : ℚ) (rest : List Char) (warns : List String)
    (pos : PosInfo) (ft : FromTo) :
    parsePosition ops vars reg ln name w rest = (warns, .ok pos) →
    pos.fromTo = some ft →
    pos.angle = ops.atan2 (ft.y2 - ft.y1) (ft.x2 - ft.x1) * 180 / ops.pi ∧
    pos.w = round3 (ops.sqrt ((ft.x2 - ft.x1) ^ 2 + (ft.y2 - ft.y1) ^ 2)) := by
  intro h hft
  simp only [parsePosition] at h
  repeat' split at h
  all_goals try (exfalso; simp at h; done)
  all_goals
    simp only [Prod.mk.injEq, Except.ok.injEq] at h
  all_goals obtain ⟨hw, hpos⟩ := h
  all_goals subst hpos
  all_goals try (exfalso; simp at hft; done)
  obtain ⟨fa, fb, fc, fd⟩ := ft
  simp only [PosInfo.fromTo, Option.some.injEq, FromTo.mk.injEq] at hft
  obtain ⟨rfl, rfl, rfl, rfl⟩ := hft
  simp [fromToGeom]

theorem boardCore_fromTo (ops : MathOps) (vars : VarMap) (reg : RegMap) (ln : ℕ)
    (dimRaw : List Char) (name : String) (rest0 : List Char) (warns : List String)
    (parts : BoardParts) (ft : FromTo) :
    boardCore ops vars reg ln dimRaw name rest0 = (warns, .ok parts) →
    parts.fromTo = some ft →
    parts.angle = ops.atan2 (ft.y2 - ft.y1) (ft.x2 - ft.x1) * 180 / ops.pi ∧
    parts.w = round3 (ops.sqrt ((ft.x2 - ft.x1) ^ 2 + (ft.y2 - ft.y1) ^ 2)) := by
  intro h hft
  simp only [boardCore] at h
  split at h
  · exfalso; simp at h
  next w0 h0 d0 heqD =>
    split at h
    next warns1 e heqP => exfalso; simp at h
    next warns1 pos heqP =>
      split at h
      · exfalso; simp at h
      next cuts rest3 heqC =>
        split at h
        · exfalso; simp at h
        next view rest4 heqV =>
          simp only [Prod.mk.injEq, Except.ok.injEq] at h
          obtain ⟨hw, hparts⟩ := h
          subst hparts
          exact parsePosition_fromTo ops vars reg ln name w0 _ warns1 pos ft heqP hft

theorem cutSideTake_mem (cs : List Char) (side : String) (k : ℕ) :
    cutSideTake cs = some (side, k) → side ∈ (["left", "right", "top", "bottom"] : List String) := by
  intro h
  unfold cutSideTake at h
  split_ifs at h <;> simp_all

theorem hasAnyCut_setCut_of_mem (c : Cuts) (side : String) (v : ℚ)
    (hs : side ∈ (["left", "right", "top", "bottom"] : List String)) :
    hasAnyCut (setCut c side v) = true := by
  fin_cases hs <;> simp [setCut, hasAnyCut]

theorem hasAnyCut_setCut_mono (c : Cuts) (side : String) (v : ℚ)
    (hc : hasAnyCut c = true) : hasAnyCut (setCut c side v) = true := by
  unfold setCut
  split_ifs <;> simp_all [hasAnyCut]

theorem buildCuts_preserves (ops : MathOps) (vars : VarMap) (reg : RegMap)
    (pairs : List (String × List Char)) :
    ∀ c c', hasAnyCut c = true → buildCuts ops vars reg c pairs = .ok c' →
      hasAnyCut c' = true := by
  induction pairs with
  | nil =>
    intro c c' hc h
    simp only [buildCuts, Except.ok.injEq] at h
    exact h ▸ hc
  | cons p rest ih =>
    intro c c' hc h
    obtain ⟨side, v⟩ := p
    simp only [buildCuts] at h
    split at h
    · exact absurd h (by simp)
    next q heq => exact ih _ _ (hasAnyCut_setCut_mono c side q hc) h

theorem cutPairsAux_sides (fuel : ℕ) :
    ∀ prev s p, p ∈ cutPairsAux fuel prev s →
      p.1 ∈ (["left", "right", "top", "bottom"] : List String) := by
  induction fuel with
  | zero => intro prev s p hp; simp [cutPairsAux] at hp
  | succ n ih =>
    intro prev s p hp
    match s with
    | [] => simp [cutPairsAux] at hp
    | c :: rest =>
      simp only [cutPairsAux] at hp
      split at hp
      next side k heq =>
        have hside : cutSideTake (c :: rest) = some (side, k) := by
          rcases Decidable.em (noWordBefore prev = true) with hnw | hnw
          · rw [if_pos hnw] at heq; exact heq
          · rw [if_neg hnw] at heq; exact absurd heq (by simp)
        split_ifs at hp
        · exact ih _ _ p hp
        · exact ih _ _ p hp
        · rcases List.mem_cons.mp hp with h1 | h2
          · subst h1; exact cutSideTake_mem _ _ _ hside
          · exact ih _ _ p h2
      next heq => exact ih _ _ p hp

theorem cutPairs_sides (s : List Char) (p : String × List Char) :
    p ∈ cutPairs s → p.1 ∈ (["left", "right", "top", "bottom"] : List String) :=
  cutPairsAux_sides _ _ _ p

/-- C1: the specified behaviour — an indented line immediately following a
board command is space-joined into that command — is absent from the code:
on the two-line input the second, indented line is classified independently,
reported as an unknown command, and the board keeps no position, although
the repository's own test suite requires zero errors and `x = 10`. -/
theorem c1_continuation_missing :
    (parseDSL testOps "board[a] 100 x 200 x 50 \"Test\"\n  at 10, 20, 30").errors
        = ["Řádek 2: neznámý příkaz"]
  ∧ (parseDSL testOps "board[a] 100 x 200 x 50 \"Test\"\n  at 10, 20, 30").boards.map
        (fun b => (b.hasPos, b.x, b.y, b.z)) = [(false, none, none, none)] := by
  decide

/-- C2: a board command whose id (explicit, or the auto-generated
`b<count>`) is already registered is rejected: the boards list, registry and
variables are unchanged, exactly one duplicate-id error naming the id is
appended, and the earlier board stays the one the registry resolves for
that id. -/
theorem c2_duplicate_id_rejected (ops : MathOps) (st : ParserState)
    (line : List Char) (ln : ℕ) (idOpt : Option String) (dimRaw0 : List Char)
    (name : String) (rest0 : List Char) (b0 : Board)
    (hm : matchBoardLine line = some (idOpt, dimRaw0, name, rest0))
    (hdup : lookupA st.reg (idOpt.getD ("b" ++ toString st.boards.length)) = some b0) :
    (parseBoard ops st line ln).boards = st.boards
  ∧ (parseBoard ops st line ln).reg = st.reg
  ∧ (parseBoard ops st line ln).vars = st.vars
  ∧ (parseBoard ops st line ln).errors
      = st.errors ++ [dupIdMsg ln (idOpt.getD ("b" ++ toString st.boards.length))]
  ∧ lookupA (parseBoard ops st line ln).reg
      (idOpt.getD ("b" ++ toString st.boards.length)) = some b0 := by
  have hsome :
      (lookupA st.reg (idOpt.getD ("b" ++ toString st.boards.length))).isSome = true := by
    rw [hdup]; rfl
  unfold parseBoard
  simp [hm, hsome, pushError, hdup]

theorem c2_duplicate_id_rejected_witness :
    (parseBoard testOps
        { vars := [], boards := [c2WitBoard], errors := [], reg := [("a", c2WitBoard)],
          varCount := 0 } "board[a] 4 x 5 x 6 \"B\"".data 2).boards = [c2WitBoard]
  ∧ (parseBoard testOps
        { vars := [], boards := [c2WitBoard], errors := [], reg := [("a", c2WitBoard)],
          varCount := 0 } "board[a] 4 x 5 x 6 \"B\"".data 2).errors
      = ["Řádek 2: duplicitní ID [a]"]
  ∧ lookupA (parseBoard testOps
        { vars := [], boards := [c2WitBoard], errors := [], reg := [("a", c2WitBoard)],
          varCount := 0 } "board[a] 4 x 5 x 6 \"B\"".data 2).reg "a" = some c2WitBoard := by
  have h := c2_duplicate_id_rejected testOps
    { vars := [], boards := [c2WitBoard], errors := [], reg := [("a", c2WitBoard)],
      varCount := 0 } "board[a] 4 x 5 x 6 \"B\"".data 2 (some "a") "4 x 5 x 6".data "B" []
    c2WitBoard (by decide) (by decide)
  refine ⟨h.1, ?_, h.2.2.2.2⟩
  rw [h.2.2.2.1]
  decide

/-- C3: the restricted arithmetic evaluator fails on any string containing a
character outside digits, whitespace and `+ - * / ( ) .`; it fails on a
non-finite result, as on `"1/0"`; otherwise it returns the
standard-precedence value rounded to 3 decimals, so `"1/3"` yields
`0.333`.  The last three conjuncts check the strict-mode lexical error path:
adjacent `--`/`++` are update-operator tokens and fail, while the spaced
`3- -5` is ordinary double negation. -/
theorem c3_math_restricted_eval :
    (∀ s : String, s.data.any (fun c => !(isMathChar c)) = true →
        isOkE (math s) = false)
  ∧ isOkE (math "1/0") = false
  ∧ math "1/3" = .ok (333/1000)
  ∧ (∀ (s : String) (v : ℚ), jsTrim s.data ≠ [] →
        (jsTrim s.data).all isMathChar = true →
        evalArith (jsTrim s.data) = some v →
        math s = .ok (round3 v))
  ∧ isOkE (math "3--5") = false
  ∧ isOkE (math "1++2") = false
  ∧ math "3- -5" = .ok 8 := by
  refine ⟨?_, by decide, by decide, ?_, by decide, by decide, by decide⟩
  · intro s hbad
    obtain ⟨c, hc, hcbad⟩ := List.any_eq_true.mp hbad
    have hcm : isMathChar c = false := by simpa using hcbad
    have hspace : isJsSpace c = false := by
      cases hj : isJsSpace c
      · rfl
      · exfalso; simp [isMathChar, hj] at hcm
    have hmem : c ∈ jsTrim s.data := mem_jsTrim_of_not_space hc hspace
    have hall : (jsTrim s.data).all isMathChar = false :=
      List.all_eq_false.mpr ⟨c, hmem, by simp [hcm]⟩
    simp only [math, mathF]
    rw [if_neg]
    · rfl
    · intro hcond
      have := hcond.2
      simp [hall] at this
  · intro s v hne hall hev
    simp only [math, mathF]
    rw [if_pos ⟨hne, hall⟩, hev]

theorem c3_math_restricted_eval_witness :
    isOkE (math "abc") = false ∧ math " 1/3 " = .ok (round3 (1/3)) :=
  ⟨c3_math_restricted_eval.1 "abc" (by decide),
   c3_math_restricted_eval.2.2.2.1 " 1/3 " (1/3) (by decide) (by decide) (by decide)⟩

/-- C4: for a from/to board the stored angle is `atan2(y2-y1, x2-x1)` in
degrees, the stored width is the rounded endpoint distance regardless of the
declared width, and the non-fatal width warning is emitted exactly when the
declared width is off by more than 1 — the board is still produced in that
case (`Math.atan2`, `Math.sqrt` and `Math.PI` are the abstracted `MathOps`
fields). -/
theorem c4_fromto_geometry :
    (∀ (ops : MathOps) (ln : ℕ) (name : String) (w x1 y1 x2 y2 : ℚ),
        (fromToGeom ops ln name w x1 y1 x2 y2).angle
            = ops.atan2 (y2 - y1) (x2 - x1) * 180 / ops.pi
      ∧ (fromToGeom ops ln name w x1 y1 x2 y2).w
            = round3 (ops.sqrt ((x2 - x1) ^ 2 + (y2 - y1) ^ 2))
      ∧ ((fromToGeom ops ln name w x1 y1 x2 y2).warns ≠ []
            ↔ |w - ops.sqrt ((x2 - x1) ^ 2 + (y2 - y1) ^ 2)| > 1))
  ∧ (∀ (ops : MathOps) (st : ParserState) (line : List Char) (ln : ℕ)
        (b : Board) (ft : FromTo),
        (parseBoard ops st line ln).boards = st.boards ++ [b] →
        b.fromTo = some ft →
        b.angle = ops.atan2 (ft.y2 - ft.y1) (ft.x2 - ft.x1) * 180 / ops.pi
      ∧ b.w = round3 (ops.sqrt ((ft.x2 - ft.x1) ^ 2 + (ft.y2 - ft.y1) ^ 2)))
  ∧ ((parseDSL testOps "board[a] 999 x 20 x 50 \"T\" from 0,0 to 100,0").boards.map
        (fun b => b.w) = [100]
    ∧ (parseDSL testOps "board[a] 999 x 20 x 50 \"T\" from 0,0 to 100,0").errors.length
        = 1) := by
  refine ⟨?_, ?_, by decide⟩
  · intro ops ln name w x1 y1 x2 y2
    refine ⟨rfl, rfl, ?_⟩
    simp only [fromToGeom]
    split_ifs with hc <;> simp [hc]
  · intro ops st line ln b ft hcreated hft
    obtain ⟨idOpt, dimRaw0, name, rest0, warns, parts, hm, hcore, hb⟩ :=
      parseBoard_created ops st line ln b hcreated
    subst hb
    exact boardCore_fromTo ops st.vars st.reg ln (jsTrim dimRaw0) name (jsTrim rest0)
      warns parts ft hcore hft

theorem c4_fromto_geometry_witness :
    (c4WitBoard.angle
        = testOps.atan2 ((0 : ℚ) - 0) ((100 : ℚ) - 0) * 180 / testOps.pi
      ∧ c4WitBoard.w
        = round3 (testOps.sqrt (((100 : ℚ) - 0) ^ 2 + ((0 : ℚ) - 0) ^ 2))) :=
  c4_fromto_geometry.2.1 testOps emptyState
    "board[a] 100 x 20 x 50 \"T\" from 0,0 to 100,0".data 1 c4WitBoard
    ⟨0, 0, 100, 0⟩ (by decide) (by decide)

/-- C5 counterexample: the color token `#abcd` has 4 hex digits — neither 3
nor 6 — yet the board command accepts it as the explicit color (instead of
falling through to the palette, whose first entry differs). -/
theorem c5_color_counterexample :
    (parseDSL testOps "board[a] 1 x 2 x 3 \"A\" color #abcd").boards.map
        (fun b => b.color) = ["#abcd"]
  ∧ (parseDSL testOps "board[a] 1 x 2 x 3 \"A\" color #abcd").errors = []
  ∧ "#abcd" ≠ AUTO_COLORS.getD 0 "" := by
  decide

/-- C5 (amended): the token after `color` is accepted as the explicit color
iff it starts with `#` followed by at least 3 hex digits; the stored color
is `#` plus the first at most 6 hex digits of that run (so 4- and 5-digit
colors are accepted, and a longer run is truncated to 6 digits). -/
theorem c5_color_amended (s : List Char) (col : String) :
    extractColorTok s = some col ↔
      (∃ t, s = '#' :: t ∧ 3 ≤ (t.takeWhile isHexDigit).length
         ∧ col = String.mk ('#' :: (t.takeWhile isHexDigit).take 6)) := by
  constructor
  · intro h
    unfold extractColorTok at h
    split at h
    next t =>
      split_ifs at h with hlen
      · exact ⟨t, rfl, hlen, by simpa using h.symm⟩
    next hne => exact absurd h (by simp)
  · rintro ⟨t, rfl, hlen, rfl⟩
    simp [extractColorTok, hlen]

theorem c5_color_amended_witness :
    extractColorTok "#abcd".data = some "#abcd" :=
  (c5_color_amended "#abcd".data "#abcd").mpr ⟨"abcd".data, by decide, by decide, by decide⟩

/-- C6: a board created without an explicit color gets
`AUTO_COLORS[n mod 12]` where `n` is the number of boards successfully
created before it (the palette has exactly 12 entries), and every created
board is assembled by `mkBoard` at index `st.boards.length`. -/
theorem c6_auto_color :
    AUTO_COLORS.length = 12
  ∧ (∀ (id name : String) (n : ℕ) (p : BoardParts), p.colorOpt = none →
        (mkBoard id name n p).color = AUTO_COLORS.getD (n % 12) "")
  ∧ (∀ (ops : MathOps) (st : ParserState) (line : List Char) (ln : ℕ) (b : Board),
        (parseBoard ops st line ln).boards = st.boards ++ [b] →
        ∃ id name parts, b = mkBoard id name st.boards.length parts) := by
  refine ⟨by decide, ?_, ?_⟩
  · intro id name n p hp
    simp [mkBoard, hp, AUTO_COLORS]
  · intro ops st line ln b h
    obtain ⟨idOpt, dimRaw0, name, rest0, warns, parts, hm, hcore, hb⟩ :=
      parseBoard_created ops st line ln b h
    exact ⟨_, name, parts, hb⟩

theorem c6_auto_color_witness :
    (mkBoard "x" "N" 13
        { w := 1, h := 1, d := 1, x := none, y := none, z := none, hasPos := false,
          angle := 0, fromTo := none, cuts := none, view := none,
          colorOpt := none }).color = AUTO_COLORS.getD (13 % 12) "" :=
  c6_auto_color.2.1 "x" "N" 13
    { w := 1, h := 1, d := 1, x := none, y := none, z := none, hasPos := false,
      angle := 0, fromTo := none, cuts := none, view := none, colorOpt := none } rfl

/-- C7 counterexample: a board command with the `cut` keyword but no
side/value pair is created with a cuts record whose four entries are all
null, contradicting "at least one non-null when present". -/
theorem c7_cuts_counterexample :
    (parseDSL testOps "board[a] 1 x 2 x 3 \"A\" cut").boards.map (fun b => b.cuts)
      = [some { left := none, right := none, top := none, bottom := none }]
  ∧ (parseDSL testOps "board[a] 1 x 2 x 3 \"A\" cut").errors = [] := by
  decide

/-- C7 (amended): the scanned side names are always among
left/right/top/bottom; with no pairs the cut step returns the all-null
record, and whenever at least one side/value pair is processed successfully
at least one of the four entries is non-null. -/
theorem c7_cuts_amended :
    (∀ (s : List Char) (p : String × List Char), p ∈ cutPairs s →
        p.1 ∈ (["left", "right", "top", "bottom"] : List String))
  ∧ (∀ (ops : MathOps) (vars : VarMap) (reg : RegMap),
        buildCuts ops vars reg cutsAllNull [] = .ok cutsAllNull)
  ∧ (∀ (ops : MathOps) (vars : VarMap) (reg : RegMap)
        (pairs : List (String × List Char)) (c : Cuts),
        buildCuts ops vars reg cutsAllNull pairs = .ok c →
        pairs ≠ [] →
        (∀ p ∈ pairs, p.1 ∈ (["left", "right", "top", "bottom"] : List String)) →
        hasAnyCut c = true) := by
  refine ⟨cutPairs_sides, fun _ _ _ => rfl, ?_⟩
  intro ops vars reg pairs c h hne hsides
  cases pairs with
  | nil => exact absurd rfl hne
  | cons p rest =>
    obtain ⟨side, v⟩ := p
    simp only [buildCuts] at h
    split at h
    · exact absurd h (by simp)
    next q heq =>
      exact buildCuts_preserves ops vars reg rest _ c
        (hasAnyCut_setCut_of_mem cutsAllNull side q (hsides (side, v) (by simp))) h

theorem c7_cuts_amended_witness :
    hasAnyCut { left := some 50, right := none, top := none, bottom := none } = true :=
  c7_cuts_amended.2.2 testOps [] [] [("left", "50".data)]
    { left := some 50, right := none, top := none, bottom := none }
    (by decide) (by decide) (by decide)

/-- C8 counterexample: a second `$T = ...` line silently overwrites the
variable — the later reference sees `2`, not the value from the creating
line, and no error is recorded. -/
theorem c8_var_mutation_counterexample :
    (parseDSL testOps "$T = 1\n$T = 2\nboard $T x 1 x 1 \"A\"").boards.map
        (fun b => b.w) = [2]
  ∧ (parseDSL testOps "$T = 1\n$T = 2\nboard $T x 1 x 1 \"A\"").errors = []
  ∧ (parseDSL testOps "$T = 1\n$T = 2\nboard $T x 1 x 1 \"A\"").varCount = 2 := by
  decide

/-- C8 (amended): a `$name = expr` line always stores the freshly evaluated
value under the name — overwriting any existing binding — and increments
`varCount`; references after a redefinition see the most recent value. -/
theorem c8_var_overwrite_amended (ops : MathOps) (st : ParserState)
    (line : List Char) (ln : ℕ) (nm : String) (rhs : List Char) (v : ℚ)
    (hm : matchVarLine line = some (nm, rhs))
    (he : eval ops st.vars st.reg (jsTrim rhs) = .ok v) :
    lookupA (parseVar ops st line ln).vars nm = some v
  ∧ (parseVar ops st line ln).varCount = st.varCount + 1 := by
  unfold parseVar
  simp only [hm, he]
  exact ⟨lookupA_setA_self st.vars nm v, by trivial⟩

theorem c8_var_overwrite_amended_witness :
    lookupA (parseVar testOps
        { vars := [("T", 1)], boards := [], errors := [], reg := [], varCount := 1 }
        "$T = 2".data 2).vars "T" = some 2
  ∧ (parseVar testOps
        { vars := [("T", 1)], boards := [], errors := [], reg := [], varCount := 1 }
        "$T = 2".data 2).varCount = 2 :=
  c8_var_overwrite_amended testOps
    { vars := [("T", 1)], boards := [], errors := [], reg := [], varCount := 1 }
    "$T = 2".data 2 "T" "2".data 2 (by decide) (by decide)

/-- C9: auto-view detection computes the projected areas `f: w*h`,
`s: d*h`, `t: w*d`, stable-sorts the three faces descending by area (ties
keep the listed order `f, s, t`) and returns the top two letters; when all
three areas tie the result is `"fs"`. -/
theorem c9_auto_views :
    (∀ b : Board, autoDetectViews b = autoDetectViewsSpec b)
  ∧ (∀ b : Board, b.w * b.h = b.d * b.h → b.w * b.h = b.w * b.d →
        autoDetectViews b = "fs") := by
  have main : ∀ b : Board, autoDetectViews b = autoDetectViewsSpec b := by
    intro b
    simp only [autoDetectViews, autoDetectViewsSpec, sortFacesDesc, List.foldl,
      insertFaceDesc]
    split_ifs <;>
      first
        | rfl
        | (exfalso; linarith)
        | (simp only [insertFaceDesc]; split_ifs <;> first | rfl | (exfalso; linarith))
  refine ⟨main, ?_⟩
  intro b h1 h2
  rw [main b]
  simp only [autoDetectViewsSpec]
  rw [← h1, ← h2]
  simp [lt_irrefl]

theorem c9_auto_views_witness :
    autoDetectViews
        { id := "", name := "", w := 100, h := 100, d := 100, x := none, y := none,
          z := none, hasPos := false, color := "", visible := true, view := none,
          angle := 0, fromTo := none, cuts := none } = "fs" :=
  c9_auto_views.2
    { id := "", name := "", w := 100, h := 100, d := 100, x := none, y := none,
      z := none, hasPos := false, color := "", visible := true, view := none,
      angle := 0, fromTo := none, cuts := none } (by decide) (by decide)

/-- C10: the derived cut polygon is exactly
`[(0,0), (bw,0), (tw,rh), (0,lh)]` with each edge value defaulting to the
full width/height, so a board without cuts yields the full `w` by `h`
rectangle. -/
theorem c10_cut_polygon :
    (∀ b : Board, boardShape b
        = [(0, 0), ((b.cuts.bind Cuts.bottom).getD b.w, 0),
           ((b.cuts.bind Cuts.top).getD b.w, (b.cuts.bind Cuts.right).getD b.h),
           (0, (b.cuts.bind Cuts.left).getD b.h)])
  ∧ (∀ b : Board, b.cuts = none →
        boardShape b = [(0, 0), (b.w, 0), (b.w, b.h), (0, b.h)]) := by
  refine ⟨fun b => rfl, ?_⟩
  intro b hc
  simp [boardShape, hc]

theorem c10_cut_polygon_witness :
    boardShape
        { id := "", name := "", w := 100, h := 200, d := 50, x := none, y := none,
          z := none, hasPos := false, color := "", visible := true, view := none,
          angle := 0, fromTo := none, cuts := none }
      = [(0, 0), (100, 0), (100, 200), (0, 200)] :=
  c10_cut_polygon.2
    { id := "", name := "", w := 100, h := 200, d := 50, x := none, y := none,
      z := none, hasPos := false, color := "", visible := true, view := none,
      angle := 0, fromTo := none, cuts := none } rfl

end Draftmaid
